import Mathlib

/-!
Verification of the packer plugin subsystem:
`src/packer/plugin/client.go` (subprocess lifecycle: Start / Kill /
logStderr / CleanupClients) and the RPC Environment proxy
(`Environment` / `EnvironmentServer`).

The Go code is shallowly embedded: pure computations become Lean
functions, the concurrent parts become explicit schedules or small-step
relations, and the standard-library pieces the code relies on
(`bytes.Buffer.ReadBytes`, `strings.TrimSpace`, `net/rpc` call
semantics) are translated from their documented behavior.
-/

namespace PackerPlugin

/-- Whitespace as decided by Go `unicode.IsSpace` (Latin-1 range), the
character class `strings.TrimSpace` trims. -/
def isGoSpace (c : Char) : Bool :=
  c = ' ' || c = '\t' || c = '\n' || c = '\u000B' || c = '\u000C' ||
  c = '\r' || c = '\u0085' || c = '\u00A0'

/-- `strings.TrimSpace` on a character list: drop whitespace from the
front, then from the back. -/
def trimSpaceL (l : List Char) : List Char :=
  ((l.dropWhile isGoSpace).reverse.dropWhile isGoSpace).reverse

/-- Go `strings.TrimSpace`. -/
def goTrimSpace (s : String) : String :=
  String.mk (trimSpaceL s.data)

/-- `bytes.Buffer.ReadBytes('\n')`: returns `(some line, rest)` where
`line` includes the delimiter when a newline is present; otherwise the
whole buffer is consumed and returned with `err = io.EOF`, modelled as
`(none, [])` because `Start`'s loop discards the data read on the EOF
path. -/
def readLineNL : List Char → Option (List Char) × List Char
  | [] => (none, [])
  | c :: cs =>
    if c = '\n' then (some [c], cs)
    else
      match readLineNL cs with
      | (some l, r) => (some (c :: l), r)
      | (none, _) => (none, [])

/-- One iteration of `Start`'s polling loop, as seen from the polling
goroutine: `arrival` is the stdout bytes the `exec` copy goroutine
appended to the buffer since the previous poll, `timeoutFired` whether
the 1-minute `time.After` channel is ready, and `exitStatus` the
process's exit status if `cmd.Wait` has returned (the exit watcher sets
`c.exited` regardless of the status, see `exitedOf`). -/
structure Poll where
  arrival : List Char
  timeoutFired : Bool
  exitStatus : Option Int

/-- The exit-watcher goroutine: `c.cmd.Wait(); c.exited = true` — the
flag is set on any termination, the exit code is ignored. -/
def exitedOf (st : Option Int) : Bool :=
  st.isSome

/-- Errors `Start`'s loop can produce. -/
inductive StartErr
  | timeout
  | prematureExit
deriving DecidableEq

/-- The `errors.New` message attached to each failure. -/
def startErrMsg : StartErr → String
  | .timeout => "timeout while waiting for plugin to start"
  | .prematureExit => "plugin exited before we could connect"

/-- Outcome of the polling loop. -/
inductive StartResult
  | ok (address : String)
  | fail (e : StartErr)
deriving DecidableEq

/-- One iteration of the loop body (client.go:128-156), in source order:
the `select` marks the timeout, then `c.Exited()` is consulted only when
no timeout fired, then `stdout.ReadBytes('\n')` — a successful read
returns the trimmed line and resets `err` to nil; otherwise a pending
error returns, else the loop continues with the buffer drained (the
bytes `ReadBytes` read on its EOF path are discarded). `some r` means
the loop returns `r`; `none` means it sleeps and polls again. -/
def startIter (buf : List Char) (p : Poll) : Option StartResult :=
  let buf := buf ++ p.arrival
  let err0 : Option StartErr := if p.timeoutFired then some .timeout else none
  let err1 : Option StartErr :=
    if err0 = none && exitedOf p.exitStatus then some .prematureExit else err0
  match readLineNL buf with
  | (some line, _) => some (.ok (goTrimSpace (String.mk line)))
  | (none, _) => err1.map .fail

/-- `Start`'s polling loop over a finite schedule of poll observations;
`none` means the schedule ended before the loop returned (in the real
program the timeout eventually fires, so a long enough schedule always
returns). After an iteration that continues, the buffer is empty:
`ReadBytes` consumed everything on its EOF path. -/
def startLoop : List Poll → List Char → Option StartResult
  | [], _ => none
  | p :: rest, buf =>
    match startIter buf p with
    | some r => some r
    | none => startLoop rest []

/-- The two flags of the `client` struct that `Start`, the exit watcher,
`Kill` and `logStderr` communicate through. -/
structure Client where
  exited : Bool
  doneLogging : Bool
deriving DecidableEq

/-- `NewClient`: both flags start false. -/
def newClient : Client :=
  ⟨false, false⟩

/-- What `Start` returns to its caller. -/
inductive StartRet
  | spawnFail (msg : String)
  | ok (address : String)
  | fail (e : StartErr)
  | pending
deriving DecidableEq

/-- The observable effect of one call to `Start`: its return value,
whether the exit-watcher and stderr-drain goroutines were spawned, and
the client state it leaves behind (`Start` itself never writes the
flags; they are written by the goroutines, modelled separately). -/
structure StartEffect where
  ret : StartRet
  watcherSpawned : Bool
  drainSpawned : Bool
  after : Client
deriving DecidableEq

/-- `client.Start` (client.go:82-159): if `cmd.Start()` fails the error
is returned at once, before either goroutine is spawned and without
touching the client's state; otherwise both goroutines are spawned and
the polling loop runs. `spawn` is the result of `cmd.Start()`
(`some msg` = the OS failed to create the subprocess). -/
def clientStart (c : Client) (spawn : Option String) (sched : List Poll) :
    StartEffect :=
  match spawn with
  | some msg =>
    { ret := .spawnFail msg, watcherSpawned := false,
      drainSpawned := false, after := c }
  | none =>
    let r : StartRet :=
      match startLoop sched [] with
      | some (.ok a) => .ok a
      | some (.fail e) => .fail e
      | none => .pending
    { ret := r, watcherSpawned := true, drainSpawned := true, after := c }

/-! ### CleanupClients (client.go:29-44)

`CleanupClients` ranges over `managedClients`, does `wg.Add(1)` and
spawns `go func() { client.Kill(); wg.Done() }()` per iteration, then
`wg.Wait()`s. The closure captures the range variable `client`, which
under the Go semantics governing this code is a single variable shared
by all iterations, re-assigned each iteration; a goroutine reads its
current value when it runs. The model makes the interleaving explicit:
a run is a sequence of events, each either one loop iteration, the
execution of one pending goroutine, or the final return (enabled once
the loop is done and the WaitGroup counter is back to zero). Handles are
identified by their index in the registry. -/

/-- State of an in-progress `CleanupClients` call. -/
structure CState where
  registry : List Nat
  i : Nat
  loopVar : Option Nat
  spawned : Nat
  wg : Nat
  kills : List Nat
  returned : Bool
deriving DecidableEq

/-- Initial state for a registry of handles. -/
def cinit (reg : List Nat) : CState :=
  ⟨reg, 0, none, 0, 0, [], false⟩

/-- Scheduler events for `CleanupClients`. -/
inductive CEvent
  | loopStep
  | goRun
  | ret
deriving DecidableEq

/-- One scheduled event. `loopStep`: the range loop assigns the shared
variable, increments the WaitGroup and spawns a goroutine. `goRun`: one
pending goroutine runs — it reads the shared `client` variable as it is
NOW, calls `Kill` on that handle, then `wg.Done()`. `ret`: `wg.Wait()`
returns once the counter is zero and the loop has finished. `none`
means the event is not enabled in this state. -/
def cstep (s : CState) : CEvent → Option CState
  | .loopStep =>
    match s.registry.get? s.i with
    | some c =>
      some { s with loopVar := some c, wg := s.wg + 1,
                    spawned := s.spawned + 1, i := s.i + 1 }
    | none => none
  | .goRun =>
    match s.spawned, s.loopVar with
    | n + 1, some c =>
      some { s with kills := s.kills ++ [c], spawned := n, wg := s.wg - 1 }
    | _, _ => none
  | .ret =>
    if s.i = s.registry.length ∧ s.wg = 0 ∧ s.returned = false then
      some { s with returned := true }
    else none

/-- Run a schedule of events from a state. -/
def crun (s : CState) : List CEvent → Option CState
  | [] => some s
  | e :: es =>
    match cstep s e with
    | some s2 => crun s2 es
    | none => none

/-! ### Runtime of a started handle: logStderr (client.go:187-207) and
Kill (client.go:167-185)

Small-step relation over the shared state of one client whose process
was actually started (`cmd.Process ≠ nil`, i.e. `cmd.Start()`
succeeded). Interleaved tasks: the exec copy goroutine appending stderr
bytes (exec.Cmd guarantees the copy finishes before `Wait` returns, and
the watcher sets `exited` only after `Wait` returns, so appends are only
enabled while `exited` is false), the exit watcher, the `logStderr`
drain loop, and one `Kill` caller. -/

/-- Position of the `logStderr` goroutine. `loopTop`: about to evaluate
`if c.Exited() { done = true }`. `draining d`: inside the inner
`ReadString` loop with the local `done = d`. `finished`: past the outer
loop, `c.doneLogging = true` has been executed. -/
inductive DrainPhase
  | loopTop
  | draining (d : Bool)
  | finished
deriving DecidableEq

/-- Position of the `Kill` caller. -/
inductive KillPhase
  | notCalled
  | waiting
  | returned
deriving DecidableEq

/-- Shared state: the two client flags, the unread part of the stderr
buffer, and the two task positions. -/
structure RState where
  exited : Bool
  doneLogging : Bool
  stderr : List Char
  drain : DrainPhase
  kill : KillPhase
deriving DecidableEq

/-- State right after a successful `Start` spawned the goroutines. -/
def rinit : RState :=
  ⟨false, false, [], .loopTop, .notCalled⟩

/-- `ReadString('\n')` when a newline is present consumes up to and
including the first newline. -/
def dropFirstLine (l : List Char) : List Char :=
  (l.dropWhile (fun c => c != '\n')).tail

/-- Interleaved small steps of the tasks around one started client. -/
inductive RStep : RState → RState → Prop
  | append (s : RState) (cs : List Char) (h : s.exited = false) :
      RStep s { s with stderr := s.stderr ++ cs }
  | procExit (s : RState) :
      RStep s { s with exited := true }
  | obsExited (s : RState) (h : s.drain = .loopTop) :
      RStep s { s with drain := .draining s.exited }
  | drainLine (s : RState) (d : Bool) (h : s.drain = .draining d)
      (hnl : '\n' ∈ s.stderr) :
      RStep s { s with stderr := dropFirstLine s.stderr }
  | drainEOF (s : RState) (d : Bool) (h : s.drain = .draining d)
      (hnl : '\n' ∉ s.stderr) :
      RStep s { s with stderr := [],
                       drain := if d then .finished else .loopTop,
                       doneLogging := d || s.doneLogging }
  | killCall (s : RState) (h : s.kill = .notCalled) :
      RStep s { s with kill := .waiting }
  | killRet (s : RState) (h : s.kill = .waiting)
      (hd : s.doneLogging = true) :
      RStep s { s with kill := .returned }

/-- States reachable from the post-`Start` state. -/
def RReach (s : RState) : Prop :=
  Relation.ReflTransGen RStep rinit s

/-- The inductive invariant tying the flags to the task positions. -/
def RInv (s : RState) : Prop :=
  (s.drain = .draining true → s.exited = true) ∧
  (s.drain = .finished → s.doneLogging = true ∧ s.exited = true ∧ s.stderr = []) ∧
  (s.doneLogging = true → s.drain = .finished) ∧
  (s.kill = .returned → s.doneLogging = true)

/-- Intermediate states of the concrete run used as witnesses: the
process exits, the drain observes it, drains the (empty) buffer and
sets `doneLogging`, then `Kill` is called and returns. -/
def rs1 : RState := ⟨true, false, [], .loopTop, .notCalled⟩

def rs2 : RState := ⟨true, false, [], .draining true, .notCalled⟩

def rs3 : RState := ⟨true, true, [], .finished, .notCalled⟩

def rs4 : RState := ⟨true, true, [], .finished, .waiting⟩

def rs5 : RState := ⟨true, true, [], .finished, .returned⟩

end PackerPlugin

namespace PackerRpc

/-! ### RPC Environment proxy (rpc package)

`Environment` is the client-side stub holding an `*rpc.Client`;
`EnvironmentServer` wraps a `packer.Environment`. The network is made
explicit: the outcome of `client.Call` and the `rpc.Dial` function are
inputs to the stub methods. Connections are abstract handles. -/

/-- An established RPC connection (abstract handle standing for a
non-nil `*rpc.Client`). -/
abbrev Conn := Nat

/-- Client-side stub for a Builder: wraps the nested connection. -/
structure BuilderStub where
  conn : Conn
deriving DecidableEq

/-- Client-side stub for a Ui. Go's `&Ui{client}` is built even when
`rpc.Dial` failed, in which case the wrapped `*rpc.Client` is nil —
modelled as `none`. -/
structure UiStub where
  conn : Option Conn
deriving DecidableEq

/-- `Environment.Builder` (part_000:24-38): calls
`Environment.Builder` over RPC; a call error is returned. On success
the reply is an address that is dialed; a dial error is returned (with a
nil Builder). Otherwise the nested stub is returned. `call` is the
result of `e.client.Call` (`.ok reply` or `.error msg`); `dial` is
`rpc.Dial "tcp"` on the advertised address. -/
def envBuilder (call : Except String String)
    (dial : String → Except String Conn) : Except String BuilderStub :=
  match call with
  | .error e => .error e
  | .ok reply =>
    match dial reply with
    | .error e => .error e
    | .ok c => .ok ⟨c⟩

/-- `Environment.Ui` (part_000:46-53): the result of `e.client.Call` is
discarded (on error the reply keeps its zero value `""`), the result of
`rpc.Dial` is discarded (`client, _ := rpc.Dial(...)`), and `&Ui{client}`
is returned unconditionally — the method has no error result. -/
def envUi (call : Except String String)
    (dial : String → Except String Conn) : UiStub :=
  let reply : String :=
    match call with
    | .ok r => r
    | .error _ => ""
  ⟨(dial reply).toOption⟩

/-! ### Round trip of Environment.Cli through net/rpc

`Environment.Cli` (part_000:40-44) wraps the argument list in
`EnvironmentCliArgs` and issues one `Call`; `EnvironmentServer.Cli`
(part_000:69-72) unwraps it and invokes the wrapped implementation
once. net/rpc delivers one request to the service method per `Call` and
sends back one response; when the service method returns a non-nil
error, only the error string crosses the wire (the server substitutes
an empty body for the reply), so the caller's result variable keeps its
prior value — here its zero value 0. -/

/-- The argument struct sent over the wire. -/
structure EnvironmentCliArgs where
  Args : List String
deriving DecidableEq

/-- `EnvironmentServer.Cli`: `*reply, err = e.env.Cli(args.Args)`. The
second component is the log of invocations of the wrapped
implementation (argument list per invocation); the server method
invokes it exactly once. -/
def environmentServerCli (impl : List String → Int × Option String)
    (args : EnvironmentCliArgs) : (Int × Option String) × List (List String) :=
  (impl args.Args, [args.Args])

/-- net/rpc `Call` for the `Environment.Cli` service method: the service
method runs once; on a nil error the written reply is transmitted into
the caller's result variable, on a non-nil error the error (as its
message string) is transmitted and the result variable keeps `resInit`. -/
def netRpcCallCli (impl : List String → Int × Option String)
    (args : EnvironmentCliArgs) (resInit : Int) :
    (Int × Option String) × List (List String) :=
  match environmentServerCli impl args with
  | ((reply, none), log) => ((reply, none), log)
  | ((_, some msg), log) => ((resInit, some msg), log)

/-- `Environment.Cli`: declares `result int` (zero value 0), wraps the
args, calls. Returns what the stub's caller observes, plus the log of
invocations that reached the served implementation. -/
def environmentCli (impl : List String → Int × Option String)
    (args : List String) : (Int × Option String) × List (List String) :=
  netRpcCallCli impl ⟨args⟩ 0

end PackerRpc

namespace PackerPlugin

/-! ## Supporting lemmas -/

theorem readLineNL_of_not_mem {l : List Char} (h : '\n' ∉ l) :
    readLineNL l = (none, []) := by
  induction l with
  | nil => rfl
  | cons c cs ih =>
    have hc : ¬ c = '\n' := fun hc => h (by simp [hc])
    have hcs : '\n' ∉ cs := fun hm => h (List.mem_cons_of_mem _ hm)
    simp [readLineNL, hc, ih hcs]

theorem readLineNL_fst_of_mem {l : List Char} (h : '\n' ∈ l) :
    (readLineNL l).1 = some (l.takeWhile (fun c => c != '\n') ++ ['\n']) := by
  induction l with
  | nil => cases h
  | cons c cs ih =>
    by_cases hc : c = '\n'
    · subst hc
      simp [readLineNL]
    · have hcs : '\n' ∈ cs := by
        rcases List.mem_cons.mp h with h1 | h1
        · exact absurd h1.symm hc
        · exact h1
      rcases hq : readLineNL cs with ⟨o, r⟩
      have hih := ih hcs
      rw [hq] at hih
      simp only at hih
      subst hih
      simp [readLineNL, hc, hq]

theorem startIter_eq_line {buf : List Char} {p : Poll}
    (h : '\n' ∈ buf ++ p.arrival) :
    startIter buf p = some (.ok (goTrimSpace (String.mk
      ((buf ++ p.arrival).takeWhile (fun c => c != '\n') ++ ['\n'])))) := by
  rcases hq : readLineNL (buf ++ p.arrival) with ⟨o, r⟩
  have h1 := readLineNL_fst_of_mem h
  rw [hq] at h1
  simp only at h1
  subst h1
  simp [startIter, hq]

theorem startIter_eq_none {buf : List Char} {p : Poll}
    (hnl : '\n' ∉ buf ++ p.arrival) (ht : p.timeoutFired = false)
    (he : p.exitStatus = none) : startIter buf p = none := by
  simp [startIter, readLineNL_of_not_mem hnl, ht, he, exitedOf]

theorem startIter_eq_timeout {buf : List Char} {p : Poll}
    (hnl : '\n' ∉ buf ++ p.arrival) (ht : p.timeoutFired = true) :
    startIter buf p = some (.fail .timeout) := by
  simp [startIter, readLineNL_of_not_mem hnl, ht]

theorem startIter_eq_prematureExit {buf : List Char} {p : Poll} {code : Int}
    (hnl : '\n' ∉ buf ++ p.arrival) (ht : p.timeoutFired = false)
    (he : p.exitStatus = some code) :
    startIter buf p = some (.fail .prematureExit) := by
  simp [startIter, readLineNL_of_not_mem hnl, ht, he, exitedOf]

/-- Iterations whose poll sees no newline, no timeout and no exit just
drain the buffer and continue. -/
theorem startLoop_skip {pre rest : List Poll}
    (h : ∀ p ∈ pre,
      '\n' ∉ p.arrival ∧ p.timeoutFired = false ∧ p.exitStatus = none) :
    startLoop (pre ++ rest) [] = startLoop rest [] := by
  induction pre with
  | nil => rfl
  | cons p ps ih =>
    have hp := h p (List.mem_cons_self p ps)
    have hnl : '\n' ∉ ([] : List Char) ++ p.arrival := by simpa using hp.1
    simp only [List.cons_append, startLoop,
      startIter_eq_none hnl hp.2.1 hp.2.2]
    exact ih (fun q hq => h q (List.mem_cons_of_mem _ hq))

theorem takeWhile_upto_newline {s : List Char} (h : '\n' ∉ s) :
    (s ++ ['\n']).takeWhile (fun c => c != '\n') = s := by
  induction s with
  | nil => simp
  | cons c cs ih =>
    have hc : ¬ c = '\n' := fun hc => h (by simp [hc])
    have hcs : '\n' ∉ cs := fun hm => h (List.mem_cons_of_mem _ hm)
    simp [List.takeWhile_cons, hc, ih hcs]

theorem dropWhile_rev_newline (l : List Char) :
    ((l ++ ['\n']).reverse).dropWhile isGoSpace
      = l.reverse.dropWhile isGoSpace := by
  have : isGoSpace '\n' = true := by decide
  simp [List.reverse_append, List.dropWhile_cons, this]

theorem dropWhile_append_nl (s : List Char) :
    (s ++ ['\n']).dropWhile isGoSpace
      = if s.dropWhile isGoSpace = [] then []
        else s.dropWhile isGoSpace ++ ['\n'] := by
  induction s with
  | nil => simp [List.dropWhile, isGoSpace]
  | cons c cs ih =>
    by_cases hc : isGoSpace c
    · simp [List.dropWhile_cons, hc, ih]
    · simp [List.dropWhile_cons, hc]

/-- `TrimSpace` ignores the trailing newline of the handshake line. -/
theorem trimSpaceL_append_newline (s : List Char) :
    trimSpaceL (s ++ ['\n']) = trimSpaceL s := by
  unfold trimSpaceL
  rw [dropWhile_append_nl]
  by_cases h : s.dropWhile isGoSpace = []
  · simp [h]
  · rw [if_neg h, dropWhile_rev_newline]

/-- `TrimSpace` of an all-whitespace string is empty. -/
theorem trimSpaceL_of_all_space {l : List Char}
    (h : ∀ c ∈ l, isGoSpace c = true) : trimSpaceL l = [] := by
  have hd : l.dropWhile isGoSpace = [] := by
    rw [List.dropWhile_eq_nil_iff]
    exact fun x hx => h x hx
  simp [trimSpaceL, hd]

theorem rinv_init : RInv rinit := by
  refine ⟨?_, ?_, ?_, ?_⟩ <;> intro h <;> simp [rinit] at h

theorem rinv_step {s t : RState} (hs : RInv s) (h : RStep s t) : RInv t := by
  obtain ⟨h1, h2, h3, h4⟩ := hs
  cases h with
  | append cs hex =>
    refine ⟨fun hd => h1 hd, fun hd => ?_, fun hd => h3 hd, fun hk => h4 hk⟩
    exact absurd hex (by simp [(h2 hd).2.1])
  | procExit =>
    exact ⟨fun _ => rfl, fun hd => ⟨(h2 hd).1, rfl, (h2 hd).2.2⟩,
      fun hd => h3 hd, fun hk => h4 hk⟩
  | obsExited h =>
    refine ⟨fun hd => ?_, fun hd => ?_, fun hd => ?_, fun hk => h4 hk⟩
    · simpa using hd
    · simp at hd
    · exact absurd (h3 hd) (by simp [h])
  | drainLine d h hnl =>
    refine ⟨fun hd => h1 hd, fun hd => ?_, fun hd => ?_, fun hk => h4 hk⟩
    · exact absurd (h.symm.trans hd) (by simp)
    · exact absurd (h3 hd) (by simp [h])
  | drainEOF d h hnl =>
    cases d with
    | true =>
      refine ⟨fun hd => ?_, fun _ => ⟨rfl, h1 h, rfl⟩, fun _ => rfl, fun hk => rfl⟩
      simp at hd
    | false =>
      have hnd : s.doneLogging = false := by
        by_contra hc
        have := h3 (by simpa using hc)
        simp [h] at this
      refine ⟨fun hd => ?_, fun hd => ?_, fun hd => ?_, fun hk => ?_⟩
      · simp at hd
      · simp at hd
      · simp [hnd] at hd
      · exact absurd (h4 hk) (by simp [hnd])
  | killCall h =>
    exact ⟨fun hd => h1 hd, fun hd => h2 hd, fun hd => h3 hd,
      fun hk => by simp at hk⟩
  | killRet h hd =>
    exact ⟨fun hx => h1 hx, fun hx => h2 hx, fun hx => h3 hx, fun _ => hd⟩

theorem rinv_reach {s : RState} (h : RReach s) : RInv s := by
  induction h with
  | refl => exact rinv_init
  | tail _ hstep ih => exact rinv_step ih hstep

theorem rreach_rs3 : RReach rs3 := by
  have h1 : RStep rinit rs1 := RStep.procExit rinit
  have h2 : RStep rs1 rs2 := RStep.obsExited rs1 rfl
  have h3 : RStep rs2 rs3 := RStep.drainEOF rs2 true rfl (by simp [rs2])
  exact Relation.ReflTransGen.tail (Relation.ReflTransGen.tail
    (Relation.ReflTransGen.tail Relation.ReflTransGen.refl h1) h2) h3

theorem rreach_rs5 : RReach rs5 := by
  have h4 : RStep rs3 rs4 := RStep.killCall rs3 rfl
  have h5 : RStep rs4 rs5 := RStep.killRet rs4 rfl rfl
  exact (rreach_rs3.tail h4).tail h5

/-! ## Claims -/

/-- C1: refuted as written — evaluation of `CleanupClients` on a
registry of two handles under the scheduling where both spawned
goroutines run after the range loop has finished. Each goroutine reads
the shared range variable `client`, which by then holds the last
handle: handle 1 is killed twice, handle 0 is never killed, and
`Cleanup` nevertheless returns. -/
theorem cleanupClients_loop_capture :
    (crun (cinit [0, 1]) [.loopStep, .loopStep, .goRun, .goRun, .ret]).map
        CState.kills = some [1, 1]
    ∧ (crun (cinit [0, 1]) [.loopStep, .loopStep, .goRun, .goRun, .ret]).map
        CState.returned = some true := by
  decide

/-- C4: in a single iteration of `Start`'s polling loop, a complete
newline-terminated line in the stdout buffer wins over everything: the
iteration returns the trimmed first line with a nil error regardless of
the timeout and exited observations of the same iteration. When no full
line is present and the timeout has fired, the iteration fails with
StartupTimeout regardless of the exited observation — StartupTimeout is
checked before PrematureExit. -/
theorem start_line_has_priority :
    (∀ (buf : List Char) (p : Poll), '\n' ∈ buf ++ p.arrival →
      startIter buf p = some (.ok (goTrimSpace (String.mk
        ((buf ++ p.arrival).takeWhile (fun c => c != '\n') ++ ['\n']))))) ∧
    (∀ (buf : List Char) (p : Poll), '\n' ∉ buf ++ p.arrival →
      p.timeoutFired = true → startIter buf p = some (.fail .timeout)) :=
  ⟨fun _ _ h => startIter_eq_line h, fun _ _ h ht => startIter_eq_timeout h ht⟩

/-- Witness for C4 at concrete inputs: a full line present while both
the timeout has fired and the process has exited still succeeds; no
line plus a fired timeout plus an observed exit fails with timeout, not
premature exit. -/
theorem start_line_has_priority_witness :
    startIter [] ⟨" a:1\n".data, true, some 0⟩ = some (.ok "a:1")
    ∧ startIter [] ⟨"a:1".data, true, some 0⟩ = some (.fail .timeout) := by
  constructor
  · have h := start_line_has_priority.1 [] ⟨" a:1\n".data, true, some 0⟩
      (by decide)
    exact h.trans (by decide)
  · exact start_line_has_priority.2 [] ⟨"a:1".data, true, some 0⟩
      (by decide) rfl

/-- C5: a subprocess that terminates before any newline reaches the
stdout buffer makes `Start` fail with the PrematureExit error, whatever
the exit code (`code` is arbitrary, including 0); the error message is
the one built at client.go:137. -/
theorem start_premature_exit (c : Client) (pre post : List Poll) (pk : Poll)
    (code : Int)
    (h : ∀ p ∈ pre,
      '\n' ∉ p.arrival ∧ p.timeoutFired = false ∧ p.exitStatus = none)
    (h1 : '\n' ∉ pk.arrival) (h2 : pk.timeoutFired = false)
    (h3 : pk.exitStatus = some code) :
    (clientStart c none (pre ++ pk :: post)).ret = .fail .prematureExit
    ∧ startErrMsg .prematureExit = "plugin exited before we could connect" := by
  refine ⟨?_, rfl⟩
  have hiter : startIter [] pk = some (.fail .prematureExit) :=
    startIter_eq_prematureExit (by simpa using h1) h2 h3
  simp [clientStart, startLoop_skip h, startLoop, hiter]

/-- Witness for C5: one quiet poll, then the process is seen to have
exited cleanly (code 0) with nothing in the buffer. -/
theorem start_premature_exit_witness :
    (clientStart newClient none
        [⟨[], false, none⟩, ⟨[], false, some 0⟩]).ret = .fail .prematureExit
    ∧ startErrMsg .prematureExit = "plugin exited before we could connect" :=
  start_premature_exit newClient [⟨[], false, none⟩] [] ⟨[], false, some 0⟩ 0
    (by decide) (by decide) rfl rfl

/-- C6: refuted as written — the subprocess writes the single
newline-terminated line "addr\n", but it reaches the stdout buffer as
"add" in one polling interval and "r\n" in the next. The poll that sees
"add" has `ReadBytes` consume and discard it (no newline, `io.EOF`), so
`Start` returns "r" with a nil error instead of "addr". -/
theorem start_split_line_truncated :
    "add".data ++ "r\n".data = "addr\n".data
    ∧ (clientStart newClient none
        [⟨"add".data, false, none⟩, ⟨"r\n".data, false, none⟩]).ret = .ok "r"
    ∧ goTrimSpace "addr\n" = "addr"
    ∧ (StartRet.ok "r" : StartRet) ≠ .ok "addr" := by
  refine ⟨by decide, by decide, by decide, by decide⟩

/-- C6 amended: if the complete newline-terminated line reaches the
stdout buffer within a single polling interval before the deadline, and
whatever arrived in earlier intervals contained no newline (it is
silently discarded), `Start` returns exactly that line with leading and
trailing whitespace removed and a nil error. -/
theorem start_returns_trimmed_line (c : Client) (pre post : List Poll)
    (pk : Poll) (s : List Char)
    (h : ∀ p ∈ pre,
      '\n' ∉ p.arrival ∧ p.timeoutFired = false ∧ p.exitStatus = none)
    (harr : pk.arrival = s ++ ['\n']) (hs : '\n' ∉ s) :
    (clientStart c none (pre ++ pk :: post)).ret
      = .ok (goTrimSpace (String.mk s)) := by
  have hmem : '\n' ∈ ([] : List Char) ++ pk.arrival := by simp [harr]
  have hline := @startIter_eq_line [] pk hmem
  have htw : (([] : List Char) ++ pk.arrival).takeWhile (fun c => c != '\n')
      = s := by
    simp [harr, takeWhile_upto_newline hs]
  rw [htw] at hline
  have hgt : goTrimSpace (String.mk (s ++ ['\n']))
      = goTrimSpace (String.mk s) := by
    simp [goTrimSpace, trimSpaceL_append_newline]
  simp [clientStart, startLoop_skip h, startLoop, hline, hgt]

/-- Witness for C6 amended: a quiet poll, then the line " a:1\n" in one
interval; `Start` returns "a:1". -/
theorem start_returns_trimmed_line_witness :
    (clientStart newClient none
        [⟨[], false, none⟩, ⟨" a:1\n".data, false, none⟩]).ret = .ok "a:1" := by
  have h := start_returns_trimmed_line newClient [⟨[], false, none⟩] []
    ⟨" a:1\n".data, false, none⟩ " a:1".data (by decide) (by decide) (by decide)
  exact h.trans (by decide)

/-- C9: if `cmd.Start()` fails, `Start` returns that error at once:
neither the exit watcher nor the stderr drain goroutine is spawned, and
the client's `exited` and `doneLogging` flags are untouched — for a
fresh client they remain false. -/
theorem start_spawn_failure (c : Client) (msg : String) (sched : List Poll) :
    clientStart c (some msg) sched
        = { ret := .spawnFail msg, watcherSpawned := false,
            drainSpawned := false, after := c }
    ∧ (clientStart newClient (some msg) sched).after.exited = false
    ∧ (clientStart newClient (some msg) sched).after.doneLogging = false :=
  ⟨rfl, rfl, rfl⟩

/-- C10: `Start` does not validate the handshake line: a first stdout
line consisting only of whitespace — a bare "\n" included — yields the
empty string as the address together with a nil error. -/
theorem start_accepts_whitespace_line (c : Client) (s : List Char)
    (h : ∀ ch ∈ s, isGoSpace ch = true) :
    (clientStart c none [⟨s ++ ['\n'], false, none⟩]).ret = .ok "" := by
  have hmem : '\n' ∈ ([] : List Char) ++ (s ++ ['\n']) := by simp
  have hline := @startIter_eq_line [] ⟨s ++ ['\n'], false, none⟩ hmem
  simp only [List.nil_append] at hline
  have hall : ∀ ch ∈ (s ++ ['\n']).takeWhile (fun c => c != '\n') ++ ['\n'],
      isGoSpace ch = true := by
    intro ch hch
    rcases List.mem_append.mp hch with h1 | h1
    · have h2 : ch ∈ s ++ ['\n'] := (List.takeWhile_sublist _).mem h1
      rcases List.mem_append.mp h2 with h3 | h3
      · exact h ch h3
      · simp at h3
        subst h3
        decide
    · simp at h1
      subst h1
      decide
  have hempty : goTrimSpace (String.mk
      ((s ++ ['\n']).takeWhile (fun c => c != '\n') ++ ['\n'])) = "" := by
    show String.mk (trimSpaceL _) = ""
    rw [trimSpaceL_of_all_space hall]
  simp [clientStart, startLoop, hline, hempty]

/-- Witness for C10: the line " \t\n". -/
theorem start_accepts_whitespace_line_witness :
    (clientStart newClient none
        [⟨" \t".data ++ ['\n'], false, none⟩]).ret = .ok "" :=
  start_accepts_whitespace_line newClient " \t".data (by decide)

/-- C7: `doneLogging` is monotonic (no step resets it), and in every
reachable state in which it holds, the process has exited and the
stderr buffer has been drained to end-of-stream. -/
theorem doneLogging_monotonic_and_drained :
    (∀ s t : RState, RStep s t → s.doneLogging = true → t.doneLogging = true)
    ∧ (∀ s : RState, RReach s → s.doneLogging = true →
        s.exited = true ∧ s.stderr = []) := by
  constructor
  · intro s t h hd
    cases h with
    | drainEOF d hph hnl => simp [hd]
    | append cs hex => exact hd
    | procExit => exact hd
    | obsExited hph => exact hd
    | drainLine d hph hnl => exact hd
    | killCall hph => exact hd
    | killRet hph hdl => exact hd
  · intro s hr hd
    obtain ⟨h1, h2, h3, h4⟩ := rinv_reach hr
    exact ⟨(h2 (h3 hd)).2.1, (h2 (h3 hd)).2.2⟩

/-- Witness for C7: along the concrete run reaching `rs3`,
`doneLogging` stays true across a further step, and at `rs3` the flag
implies exit plus a drained buffer. -/
theorem doneLogging_monotonic_and_drained_witness :
    rs4.doneLogging = true ∧ rs3.exited = true ∧ rs3.stderr = [] :=
  ⟨doneLogging_monotonic_and_drained.1 rs3 rs4 (RStep.killCall rs3 rfl) rfl,
   (doneLogging_monotonic_and_drained.2 rs3 rreach_rs3 rfl).1,
   (doneLogging_monotonic_and_drained.2 rs3 rreach_rs3 rfl).2⟩

/-- C8: in every reachable state of a started handle in which `Kill`
has returned, `doneLogging` is true — and hence (by the invariant) the
process has exited and all pre-death stderr output has been drained and
forwarded. -/
theorem kill_waits_for_logging :
    ∀ s : RState, RReach s → s.kill = .returned →
      s.doneLogging = true ∧ s.exited = true ∧ s.stderr = [] := by
  intro s hr hk
  obtain ⟨h1, h2, h3, h4⟩ := rinv_reach hr
  have hd := h4 hk
  exact ⟨hd, (h2 (h3 hd)).2.1, (h2 (h3 hd)).2.2⟩

/-- Witness for C8: the concrete run in which the process exits, the
drain finishes, `Kill` is called and returns. -/
theorem kill_waits_for_logging_witness :
    rs5.doneLogging = true ∧ rs5.exited = true ∧ rs5.stderr = [] :=
  kill_waits_for_logging rs5 rreach_rs5 rfl

end PackerPlugin

namespace PackerRpc

/-- C2: refuted as written for `Environment.Ui` — with a failing RPC
call and a failing dial, `Ui` returns a stub wrapping a nil client and
reports nothing (its signature has no error result); the outcome is
identical to that of a successful call that returned the empty
address. -/
theorem environment_ui_swallows_failures :
    envUi (.error "connection is shut down") (fun _ => .error "dial failed")
        = ⟨none⟩
    ∧ envUi (.error "connection is shut down") (fun _ => .error "dial failed")
        = envUi (.ok "") (fun _ => .error "dial failed") :=
  ⟨rfl, rfl⟩

/-- C2 amended: `Environment.Builder` reports both an RPC-call failure
and a dial failure to its caller as the returned error (and only
succeeds when both steps succeed); `Environment.Ui` ignores both
failure modes — a failed call is indistinguishable from a successful
call that returned the empty address. -/
theorem environment_builder_reports_ui_ignores :
    (∀ (e : String) (dial : String → Except String Conn),
      envBuilder (.error e) dial = .error e)
    ∧ (∀ (r e : String) (dial : String → Except String Conn),
        dial r = .error e → envBuilder (.ok r) dial = .error e)
    ∧ (∀ (r : String) (dial : String → Except String Conn) (c : Conn),
        dial r = .ok c → envBuilder (.ok r) dial = .ok ⟨c⟩)
    ∧ (∀ (e : String) (dial : String → Except String Conn),
        envUi (.error e) dial = envUi (.ok "") dial) := by
  refine ⟨fun e dial => rfl, fun r e dial hd => ?_, fun r dial c hd => ?_,
    fun e dial => rfl⟩
  · simp [envBuilder, hd]
  · simp [envBuilder, hd]

/-- Witness for C2 amended, at a concrete dial function. -/
theorem environment_builder_reports_ui_ignores_witness :
    envBuilder (.ok "a:1") (fun _ => .error "connection refused")
        = .error "connection refused"
    ∧ envBuilder (.ok "a:1") (fun _ => .ok 7) = .ok ⟨7⟩ :=
  ⟨environment_builder_reports_ui_ignores.2.1 "a:1" "connection refused" _ rfl,
   environment_builder_reports_ui_ignores.2.2.1 "a:1" _ 7 rfl⟩

/-- C3: refuted as written — an implementation returning exit code 3
together with a non-nil error is observed by the stub's caller as
`(0, the error)`: net/rpc does not transmit the reply body when the
service method returns an error, so the caller's zero-initialized
`result int` survives. -/
theorem environment_cli_error_drops_exit_code :
    environmentCli (fun _ => (3, some "boom")) ["x"]
        = ((0, some "boom"), [["x"]])
    ∧ (fun (_ : List String) => ((3 : Int), some "boom")) ["x"]
        = (3, some "boom")
    ∧ (((0 : Int), (some "boom" : Option String)) : Int × Option String)
        ≠ (3, some "boom") := by
  refine ⟨rfl, rfl, by decide⟩

/-- C3 amended: calling the stub's `Cli` invokes the served
implementation exactly once with the identical argument sequence; when
the implementation's error is nil the caller observes its exit code and
nil error unchanged; when the error is non-nil the caller observes that
error (message preserved) but exit code 0 — the zero value of the
stub's result variable — rather than the implementation's code. -/
theorem environment_cli_round_trip (impl : List String → Int × Option String)
    (args : List String) :
    (environmentCli impl args).2 = [args]
    ∧ ((impl args).2 = none → (environmentCli impl args).1 = impl args)
    ∧ (∀ msg, (impl args).2 = some msg →
        (environmentCli impl args).1 = (0, some msg)) := by
  rcases h : impl args with ⟨code, err⟩
  cases err with
  | none =>
    refine ⟨?_, fun _ => ?_, fun msg hmsg => ?_⟩
    · simp [environmentCli, netRpcCallCli, environmentServerCli, h]
    · simp [environmentCli, netRpcCallCli, environmentServerCli, h]
    · simp at hmsg
  | some m =>
    refine ⟨?_, fun hnone => ?_, fun msg hmsg => ?_⟩
    · simp [environmentCli, netRpcCallCli, environmentServerCli, h]
    · simp at hnone
    · simp at hmsg
      subst hmsg
      simp [environmentCli, netRpcCallCli, environmentServerCli, h]

/-- Witness for C3 amended: a succeeding implementation is observed
verbatim; a failing one is observed with its message and exit code 0. -/
theorem environment_cli_round_trip_witness :
    (environmentCli (fun a => ((a.length : Int), none)) ["x", "y"]).1
        = (2, none)
    ∧ (environmentCli (fun _ => ((7 : Int), some "remote failure")) []).1
        = (0, some "remote failure")
    ∧ (environmentCli (fun a => ((a.length : Int), none)) ["x", "y"]).2
        = [["x", "y"]] := by
  refine ⟨?_, ?_, ?_⟩
  · have h := (environment_cli_round_trip
      (fun a => ((a.length : Int), none)) ["x", "y"]).2.1 rfl
    exact h.trans (by decide)
  · exact (environment_cli_round_trip
      (fun _ => ((7 : Int), some "remote failure")) []).2.2 "remote failure" rfl
  · exact (environment_cli_round_trip
      (fun a => ((a.length : Int), none)) ["x", "y"]).1

end PackerRpc
